import Mathlib

/-!
Verification of the gc-cli Google Classroom client against its
natural-language specification.

The Lean definitions below are a shallow embedding of the Go source:

* `internal/api/submissions.go` — the resilient request layer
  (`doRequestWithRetry`, `get`) and the paginated list operations
  (`ListCourses`, `ListCourseWork`, `ListAnnouncements`,
  `ListStudentSubmissions`);
* `internal/auth/auth.go` — the OAuth browser flow callback wait
  (`startCallbackServer`);
* the token persistence layer (`TokenToFile`, `TokenFromFile`,
  `GetValidToken`);
* the command handlers (`handleCoursesList`, `handleGrades`,
  `handleAnnouncements`, `handleSubmit`) and the TUI loaders
  (`loadCourses`, `loadCoursesForPicker`, `loadGrades`,
  `loadAnnouncements`).

Time durations are modelled in milliseconds as `Nat`; the network is
modelled as an explicit sequence of per-attempt outcomes consumed in
order; the context is modelled by a predicate saying whether the
context is already cancelled when the backoff sleep after a given
attempt begins.
-/

namespace GcCli

/-- Constants from `internal/api/submissions.go`:
`defaultRetry = 3`, `initialDelay = time.Second`, `maxDelay = 32 * time.Second`
(durations in milliseconds). -/
def defaultRetry : Nat := 3

def initialDelay : Nat := 1000

def maxDelay : Nat := 32000

/-- One HTTP attempt as seen by `doRequest`: either the transport fails
(`netErr`, the `c.httpClient.Do` error path) or a response with a status
code and a body arrives. -/
inductive Attempt (β : Type) where
  | netErr : Attempt β
  | resp (status : Nat) (body : β) : Attempt β
deriving DecidableEq, Repr

/-- The outcome of `doRequestWithRetry` followed by the `get`/`patch`
status check, as observed by the caller:

* `success body` — final status < 400, body returned;
* `netErr` — `doRequest` failed, returned immediately;
* `apiErr status body` — terminal status with the body still open, so
  `parseError` classifies from the body (404/403 and other 4xx);
* `readErr status` — the retry budget was exhausted on a 429 or ≥500
  response whose body the loop had already closed before calling
  `parseError`, so `io.ReadAll` fails and a body-read error is returned
  instead of a classified `APIError`;
* `cancelled` — the context was cancelled during a backoff sleep
  (`ctx.Err()` returned);
* `hang` — the supplied attempt sequence was exhausted while the loop
  still wanted another attempt (outside the modelled trace). -/
inductive RetryResult (β : Type) where
  | success (body : β)
  | netErr
  | apiErr (status : Nat) (body : β)
  | readErr (status : Nat)
  | cancelled
  | hang
deriving DecidableEq, Repr

/-- The observable behaviour of one `doRequestWithRetry` call: how many
HTTP attempts were executed, which backoff delays were slept between
them, and the final result. -/
structure LoopOut (β : Type) where
  attempts : Nat
  delays : List Nat
  result : RetryResult β
deriving DecidableEq, Repr

/-- The backoff update in `doRequestWithRetry`:
`backoff *= 2; if backoff > maxDelay { backoff = maxDelay }`. -/
def stepBackoff (backoff maxD : Nat) : Nat :=
  if 2 * backoff > maxD then maxD else 2 * backoff

/-- Shallow embedding of the loop body of `doRequestWithRetry`
(`internal/api/submissions.go` lines 317–372) composed with the
`resp.StatusCode >= 400` check in `get`/`patch`.

`remaining` is `c.retries - i` (the loop runs while `i <= c.retries`
and may `continue` only while `i < c.retries`); `backoff` is the
current backoff; `cancel k` says whether the context is already
cancelled when the sleep following the `k`-th remaining attempt
begins (the `select` then takes `ctx.Done()`); the list holds the
server's answer to each successive attempt.

Branch order follows the source: 429 first, then `< 400`, then
404/403, then `>= 500`, then the remaining 4xx. On the 429 and ≥500
paths the body is closed before any possible `parseError`, hence
`readErr` on budget exhaustion. -/
def retryGo (maxD : Nat) (cancel : Nat → Bool) :
    Nat → Nat → List (Attempt β) → LoopOut β
  | _, _, [] => ⟨0, [], .hang⟩
  | remaining, backoff, a :: rest =>
    match a with
    | .netErr => ⟨1, [], .netErr⟩
    | .resp s body =>
      if s = 429 then
        match remaining with
        | r + 1 =>
          if cancel 0 then ⟨1, [], .cancelled⟩
          else
            let o := retryGo maxD (fun k => cancel (k + 1)) r
              (stepBackoff backoff maxD) rest
            ⟨o.attempts + 1, backoff :: o.delays, o.result⟩
        | 0 => ⟨1, [], .readErr s⟩
      else if s < 400 then ⟨1, [], .success body⟩
      else if s = 404 ∨ s = 403 then ⟨1, [], .apiErr s body⟩
      else if 500 ≤ s then
        match remaining with
        | r + 1 =>
          if cancel 0 then ⟨1, [], .cancelled⟩
          else
            let o := retryGo maxD (fun k => cancel (k + 1)) r
              (stepBackoff backoff maxD) rest
            ⟨o.attempts + 1, backoff :: o.delays, o.result⟩
        | 0 => ⟨1, [], .readErr s⟩
      else ⟨1, [], .apiErr s body⟩

/-- One full `doRequestWithRetry` call: budget `retries`, starting
backoff `backoff`, cap `maxD`. -/
def doRequestWithRetry (retries backoff maxD : Nat) (cancel : Nat → Bool)
    (resps : List (Attempt β)) : LoopOut β :=
  retryGo maxD cancel retries backoff resps

/-! ## Paginated list operations

Each list operation (`ListCourses`, `ListCourseWork`,
`ListAnnouncements`, `ListStudentSubmissions`) runs the same loop:
fetch a page with the current `pageToken` through `c.get`, abort on
any error, unmarshal, append the page's items to the accumulator, and
stop when `NextPageToken` is empty. We model the server as the
sequence of per-page fetch-and-unmarshal outcomes, in the order the
loop requests them. -/

/-- One decoded page: its items and the `nextPageToken` field
(empty string means last page). -/
structure Page (α : Type) where
  items : List α
  next : String
deriving DecidableEq, Repr

/-- The outcome of one `c.get` + `json.Unmarshal` for a page:
either an error (transport, classified API error, or parse failure —
all of which make the list operation return `nil, "", err`) or a
decoded page. -/
inductive FetchOutcome (α : Type) where
  | fail (msg : String)
  | page (p : Page α)
deriving DecidableEq, Repr

/-- Result of a list operation over a modelled trace: the aggregated
items, an error, or `exhausted` when the loop asked for a page beyond
the supplied trace (outside the modelled scenario). -/
inductive ListResult (α : Type) where
  | ok (items : List α)
  | err (msg : String)
  | exhausted
deriving DecidableEq, Repr

/-- The shared pagination loop of the four list operations: consume
fetch outcomes in order; any failure aborts the whole operation with
that error and no items; a page with empty `next` ends the loop;
otherwise the page's items are prepended (in server order) to whatever
the rest of the loop returns. -/
def listPaginated : List (FetchOutcome α) → ListResult α
  | [] => .exhausted
  | .fail e :: _ => .err e
  | .page p :: rest =>
    if p.next = "" then .ok p.items
    else
      match listPaginated rest with
      | .ok more => .ok (p.items ++ more)
      | r => r

/-- `Course` record from the api package (string fields as in the Go
struct; `courseSection` models the Go `Section` field, whose lowercase
name is reserved in Lean; opaque JSON sub-objects omitted). -/
structure Course where
  id : String
  name : String
  courseSection : String
  description : String
  room : String
  ownerID : String
  courseState : String
deriving DecidableEq, Repr

/-- `CourseWork` record (the fields the verified paths read). -/
structure CourseWork where
  id : String
  courseID : String
  title : String
  description : String
  state : String
  workType : String
  maxPoints : Int
deriving DecidableEq, Repr

/-- `Announcement` record (the fields the verified paths read;
`creationTime` is the `CreationTime` timestamp, in epoch seconds). -/
structure Announcement where
  id : String
  courseID : String
  text : String
  state : String
  creationTime : Int
deriving DecidableEq, Repr

/-- `StudentSubmission` record. Grades are `float64` in Go; the
verified paths only compare them with `0` and copy them, so they are
modelled as rationals. `returnedAt`/`submittedAt` model the
`ReturnTimestamp`/`SubmittedTimestamp` fields (`none` = zero time). -/
structure StudentSubmission where
  id : String
  courseID : String
  courseWorkID : String
  state : String
  assignedGrade : Rat
  draftGrade : Rat
  submittedAt : Option Int
  returnedAt : Option Int
deriving DecidableEq, Repr

/-- `ListCourses` (`courses.go` 479–504): the pagination loop at type
`Course`. -/
def ListCourses (pages : List (FetchOutcome Course)) : ListResult Course :=
  listPaginated pages

/-- `ListCourseWork` (`coursework.go` 574–600): the pagination loop at
type `CourseWork`. -/
def ListCourseWork (pages : List (FetchOutcome CourseWork)) :
    ListResult CourseWork :=
  listPaginated pages

/-- `ListAnnouncements` (`announcements.go` 31–57): the pagination
loop at type `Announcement`. -/
def ListAnnouncements (pages : List (FetchOutcome Announcement)) :
    ListResult Announcement :=
  listPaginated pages

/-- `ListStudentSubmissions` (`submissions.go` 36–62): the pagination
loop at type `StudentSubmission`. -/
def ListStudentSubmissions (pages : List (FetchOutcome StudentSubmission)) :
    ListResult StudentSubmission :=
  listPaginated pages

/-- Lift a `doRequestWithRetry` outcome to a page-fetch outcome, as
`get` + `json.Unmarshal` do: a successful `< 400` response yields its
(already decoded) page, every error path yields an error. -/
def getOutcome : LoopOut (Page α) → FetchOutcome α
  | ⟨_, _, .success p⟩ => .page p
  | ⟨_, _, .netErr⟩ => .fail "request failed"
  | ⟨_, _, .apiErr s _⟩ => .fail ("API error " ++ toString s)
  | ⟨_, _, .readErr _⟩ => .fail "failed to read response body"
  | ⟨_, _, .cancelled⟩ => .fail "context cancelled"
  | ⟨_, _, .hang⟩ => .fail "no response"

/-- A list operation over the retry layer: page `i` of the listing is
fetched by its own `doRequestWithRetry` call with a fresh budget and a
fresh starting backoff, served by the `i`-th attempt sequence. -/
def listWithRetry (retries backoff maxD : Nat)
    (pageResps : List (List (Attempt (Page α)))) : ListResult α :=
  listPaginated (pageResps.map (fun rs =>
    getOutcome (doRequestWithRetry retries backoff maxD (fun _ => false) rs)))

/-! ## OAuth callback wait (`internal/auth/auth.go`)

`startCallbackServer` binds a loopback listener (`defer
listener.Close()`), registers a `/callback` handler that sends on
`codeChan` or `errChan`, and then selects over `codeChan`, `errChan`
and `ctx.Done()`, shutting the server down on each branch before
returning. We model the environment as the ordered sequence of events
that could resolve the wait; the select resolves on the first one. -/

/-- The query parameters of one inbound `/callback` request. -/
structure CallbackQuery where
  errorParam : String
  errorDescription : String
  state : String
  code : String
deriving DecidableEq, Repr

/-- An event that can resolve the wait: an inbound callback request,
or cancellation of the surrounding context. -/
inductive AuthEvent where
  | callback (q : CallbackQuery)
  | cancel
deriving DecidableEq, Repr

/-- How the wait ends. `timeout` is the outcome the specification
describes for a 60-second expiry; `blocked` records that the select
never fires (no event ever arrives). -/
inductive WaitOutcome where
  | code (c : String)
  | err (e : String)
  | cancelled
  | timeout
  | blocked
deriving DecidableEq, Repr

/-- The `/callback` handler (`auth.go` 91–114): a provider `error`
query parameter, a state mismatch, or a missing code each send on
`errChan`; otherwise the code is sent on `codeChan`. -/
def handleCallback (expectedState : String) (q : CallbackQuery) :
    Except String String :=
  if q.errorParam ≠ "" then
    .error ("oauth error: " ++ q.errorParam ++ " - " ++ q.errorDescription)
  else if q.state ≠ expectedState then
    .error ("state mismatch: expected " ++ expectedState ++ ", got " ++ q.state)
  else if q.code = "" then
    .error "no authorization code received"
  else
    .ok q.code

/-- The select in `startCallbackServer` (`auth.go` 127–137): the first
event wins and the later ones are discarded. Its three cases are
`codeChan`, `errChan` and `ctx.Done()`; there is no timer case. With
no event at all the select never fires. -/
def waitOutcome (expectedState : String) : List AuthEvent → WaitOutcome
  | [] => .blocked
  | .cancel :: _ => .cancelled
  | .callback q :: _ =>
    match handleCallback expectedState q with
    | .ok c => .code c
    | .error e => .err e

/-- The observable resource behaviour of one `startCallbackServer`
call: its outcome, whether the loopback listener was bound, and
whether it was released again by the time the call returned. -/
structure ServerRun where
  outcome : WaitOutcome
  acquired : Bool
  released : Bool
deriving DecidableEq, Repr

/-- `startCallbackServer` (`auth.go` 77–138): if the bind fails the
function returns at once without a listener; otherwise the listener is
bound, the wait runs, and on each of the three select branches the
server is shut down — and `defer listener.Close()` runs — before the
function returns. If the select never fires the function never
returns, so the deferred close never runs. -/
def startCallbackServer (expectedState : String) (bindOk : Bool)
    (events : List AuthEvent) : ServerRun :=
  if bindOk then
    match waitOutcome expectedState events with
    | .blocked => ⟨.blocked, true, false⟩
    | o => ⟨o, true, true⟩
  else
    ⟨.err "failed to find available port", false, false⟩

/-! ## Token persistence (`TokenToFile`, `TokenFromFile`, `GetValidToken`)

These functions live in the repository's auth package; `cmd/gc-cli`
calls them and the repository's plan document carries their code
(`google-classroom-cli.md` 947–1043). -/

/-- A file as a concurrent reader can observe it: its byte content and
its permission bits. -/
structure FsFile where
  content : String
  mode : Nat
deriving DecidableEq, Repr

/-- The sequence of file states a concurrent reader can observe while
`os.WriteFile(path, data, perm)` runs: the open with
`O_WRONLY|O_CREATE|O_TRUNC` first truncates the file (creating it with
mode `perm` when absent; an existing file keeps its mode), then the
write fills in the data. The state before the call (`old`) is listed
first. -/
def writeFileStates (old : Option FsFile) (data : String) (perm : Nat) :
    List FsFile :=
  match old with
  | none => [⟨"", perm⟩, ⟨data, perm⟩]
  | some f => [f, ⟨"", f.mode⟩, ⟨data, f.mode⟩]

/-- `TokenToFile` (plan document lines 961–976): marshal the token and
call `os.WriteFile(tokenFile, data, 0600)`. `data` stands for the
marshalled token bytes; the result is the sequence of observable file
states. `0o600` is owner read/write only. -/
def TokenToFile (old : Option FsFile) (data : String) : List FsFile :=
  writeFileStates old data 0o600

/-- An OAuth2 token as persisted: access token, refresh token, token
type and expiry (seconds since the epoch). -/
structure Token where
  accessToken : String
  refreshToken : String
  tokenType : String
  expiry : Int
deriving DecidableEq, Repr

/-- `TokenFromFile` (plan document lines 947–959): read and unmarshal
the token file. Persistence is modelled at the value level (the
marshalled JSON of the exported fields round-trips), so the file state
is `Option Token` and a missing file is the read error. -/
def TokenFromFile : Option Token → Except String Token
  | none => .error "failed to read token file"
  | some t => .ok t

/-- `GetValidToken` (plan document lines 1020–1043) over a file state:
load the token (error if absent); return it as-is while
`token.Expiry.After(time.Now())`; otherwise, with a refresh token
present, refresh through the provider, persist the new token with
`TokenToFile` and return it (an error while persisting surfaces);
otherwise fail asking for re-authorization. Returns the file state
after the call together with the result. -/
def GetValidToken (now : Int) (refresh : Token → Except String Token)
    (file : Option Token) : Option Token × Except String Token :=
  match file with
  | none => (none, .error "no valid token found, please run auth login")
  | some t =>
    if now < t.expiry then
      (some t, .ok t)
    else if t.refreshToken ≠ "" then
      match refresh t with
      | .ok nt => (some nt, .ok nt)
      | .error _ => (some t, .error "token expired, please run auth login")
    else
      (some t, .error "token expired, please run auth login")

/-! ## Command layer and TUI loaders

The fetches a handler performs are passed in as their results: the
valid-token lookup, the list-operation result, and the per-coursework
`GetMySubmission` lookup as a function of the coursework ID. A
handler returns `Except`: `.error` is the error message surfaced to
the user, `.ok` is the data displayed. `NewClientFromToken` never
returns an error in the source, so it has no failure branch here. -/

/-- `handleCoursesList` (the `courses list` command): authentication
failure and list failure are returned as errors; on success exactly
the courses with `CourseState == "ACTIVE"` are displayed, in server
order. -/
def handleCoursesList (tokenRes : Except String Token)
    (coursesRes : Except String (List Course)) : Except String (List Course) :=
  match tokenRes with
  | .error e => .error ("authentication required: " ++ e)
  | .ok _ =>
    match coursesRes with
    | .error e => .error ("failed to list courses: " ++ e)
    | .ok courses => .ok (courses.filter (fun c => c.courseState = "ACTIVE"))

/-- The views of the interactive TUI (`internal/tui/app.go`). -/
inductive View where
  | mainMenu
  | courses
  | coursePicker
  | coursework
  | grades
  | announcements
  | error
  | authRequired
deriving DecidableEq, Repr

/-- `CourseItem` as built by the TUI course loaders. -/
structure CourseItem where
  id : String
  name : String
  courseSection : String
  desc : String
  room : String
deriving DecidableEq, Repr

/-- `GradeItem` as built by the TUI `loadGrades` (numeric values kept;
the source renders them with Sprintf). -/
structure GradeItem where
  courseName : String
  assignment : String
  score : Rat
  maxScore : Int
  submittedAt : Option Int
deriving DecidableEq, Repr

/-- `AnnouncementItem` as built by the TUI `loadAnnouncements`: the
selected course name, the announcement text used as both title and
body, and the creation timestamp (the source renders it with
`Format`). -/
structure AnnouncementItem where
  courseName : String
  announceTitle : String
  text : String
  postedAt : Int
deriving DecidableEq, Repr

/-- The slice of the TUI model the verified loaders read and write.
The transient `IsLoading` toggling inside a loader is invisible at
this granularity and omitted. -/
structure TuiModel where
  authenticated : Bool
  currentView : View
  errorMsg : String
  selectedCourseID : String
  selectedCourseName : String
  courses : List CourseItem
  grades : List GradeItem
  announcements : List AnnouncementItem
deriving DecidableEq, Repr

/-- The `CourseItem` the TUI builds from an API `Course`. -/
def toCourseItem (c : Course) : CourseItem :=
  ⟨c.id, c.name, c.courseSection, c.description, c.room⟩

/-- TUI `loadCourses` (`app.go` 1748–1783): unauthenticated → the
auth-required view; a list failure → the error view with a message;
on success `m.Courses` holds exactly the `ACTIVE` courses, in server
order. -/
def loadCourses (m : TuiModel) (res : Except String (List Course)) : TuiModel :=
  if m.authenticated = false then
    { m with currentView := .authRequired,
             errorMsg := "Please authenticate first" }
  else
    match res with
    | .error e =>
      { m with currentView := .error, errorMsg := "Failed to load classes: " ++ e }
    | .ok cs =>
      { m with courses :=
          (cs.filter (fun c => c.courseState = "ACTIVE")).map toCourseItem }

/-- TUI `loadCoursesForPicker` (`app.go` 1785–1813): same as
`loadCourses` but without the authentication guard; the picker view
itself is set by the caller. -/
def loadCoursesForPicker (m : TuiModel) (res : Except String (List Course)) :
    TuiModel :=
  match res with
  | .error e =>
    { m with currentView := .error, errorMsg := "Failed to load classes: " ++ e }
  | .ok cs =>
    { m with courses :=
        (cs.filter (fun c => c.courseState = "ACTIVE")).map toCourseItem }

/-- Claim C10: every course listing shown to the user — the one-shot
`courses list` command and the TUI Courses and course-picker views —
displays exactly the input courses whose `CourseState` is `"ACTIVE"`,
in input order; courses in any other state are filtered out and never
displayed. -/
theorem c10_only_active_courses_displayed :
    (∀ (tok : Token) (courses : List Course),
      handleCoursesList (.ok tok) (.ok courses)
        = .ok (courses.filter (fun c => c.courseState = "ACTIVE")))
    ∧ (∀ (m : TuiModel) (courses : List Course), m.authenticated = true →
      (loadCourses m (.ok courses)).courses
        = (courses.filter (fun c => c.courseState = "ACTIVE")).map toCourseItem)
    ∧ (∀ (m : TuiModel) (courses : List Course),
      (loadCoursesForPicker m (.ok courses)).courses
        = (courses.filter (fun c => c.courseState = "ACTIVE")).map toCourseItem)
    ∧ (∀ (tok : Token) (courses : List Course) (c : Course),
      handleCoursesList (.ok tok) (.ok courses) = .ok (courses.filter
        (fun c => c.courseState = "ACTIVE")) →
      ((c ∈ courses ∧ c.courseState = "ACTIVE") ↔
        c ∈ courses.filter (fun c => c.courseState = "ACTIVE"))) := by
  refine ⟨fun tok courses => rfl, fun m courses h => ?_, fun m courses => rfl,
    fun tok courses c _ => ?_⟩
  · simp [loadCourses, h]
  · simp [List.mem_filter]

/-- Claim C10 witness: with one `ACTIVE` and one `ARCHIVED` course,
the TUI course loader displays exactly the `ACTIVE` one. -/
theorem c10_witness :
    (loadCourses ⟨true, View.mainMenu, "", "", "", [], [], []⟩
      (.ok [⟨"c1", "Math", "S1", "d", "r", "o", "ACTIVE"⟩,
            ⟨"c2", "Old", "S0", "d", "r", "o", "ARCHIVED"⟩])).courses
    = [⟨"c1", "Math", "S1", "d", "r"⟩] := by
  rw [c10_only_active_courses_displayed.2.1 _ _ rfl]
  rfl

/-- Claim C7 counterexample: `TokenToFile` is not an atomic replace.
Overwriting a token file holding `"OLD"` with `"NEW"` exposes an
intermediate state (the truncated, empty file) that is neither the old
nor the new content, so a concurrent reader can observe a half-written
file. -/
theorem c7_counterexample :
    ¬ (∀ s ∈ TokenToFile (some ⟨"OLD", 0o600⟩) "NEW",
        s.content = "OLD" ∨ s.content = "NEW") := by
  decide

/-- Claim C7 (amended): `TokenToFile` creates the token file with
owner-only (0600) permissions and its final state holds exactly the
marshalled token, but the write is an in-place truncate-and-write, not
an atomic replace: over an existing file the truncated (empty) state
is observable by a concurrent reader, and an existing file keeps its
prior permission bits. -/
theorem c7_owner_only_nonatomic_write :
    ∀ (data : String),
      (∀ s ∈ TokenToFile none data, s.mode = 0o600)
      ∧ (TokenToFile none data).getLast? = some ⟨data, 0o600⟩
      ∧ ∀ old : FsFile,
          FsFile.mk "" old.mode ∈ TokenToFile (some old) data
          ∧ (TokenToFile (some old) data).getLast? = some ⟨data, old.mode⟩ := by
  intro data
  refine ⟨?_, rfl, fun old => ⟨?_, rfl⟩⟩
  · intro s hs
    simp [TokenToFile, writeFileStates] at hs
    rcases hs with h | h <;> simp [h]
  · simp [TokenToFile, writeFileStates]

/-- Claim C7 witness: writing `"tok"` to a fresh file yields the 0600
states and ends with the data in place. -/
theorem c7_witness :
    (∀ s ∈ TokenToFile none "tok", s.mode = 0o600)
    ∧ (TokenToFile none "tok").getLast? = some ⟨"tok", 0o600⟩ := by
  have h := c7_owner_only_nonatomic_write "tok"
  exact ⟨h.1, h.2.1⟩

/-- Claim C5 counterexample: the callback wait has no 60-second
timeout. With no inbound callback and no cancellation the select in
`startCallbackServer` never fires: the wait blocks forever instead of
failing with a timeout. -/
theorem c5_counterexample :
    waitOutcome "gc-cli-1" [] = WaitOutcome.blocked
    ∧ WaitOutcome.blocked ≠ WaitOutcome.timeout := by
  decide

/-- Claim C5 (amended): the wait resolves to the first event — an
inbound callback (yielding its code when the provider sent no error,
the state matches, and a code is present, and an error outcome
otherwise) or explicit cancellation — and later events are discarded;
there is no timeout: with no callback and no cancellation the wait
blocks indefinitely. -/
theorem c5_first_event_wins :
    (∀ (st : String) (e : AuthEvent) (es : List AuthEvent),
      waitOutcome st (e :: es) = waitOutcome st [e])
    ∧ (∀ (st : String) (es : List AuthEvent),
      waitOutcome st (AuthEvent.cancel :: es) = WaitOutcome.cancelled)
    ∧ (∀ (st : String) (q : CallbackQuery) (es : List AuthEvent),
      q.errorParam = "" → q.state = st → q.code ≠ "" →
      waitOutcome st (AuthEvent.callback q :: es) = WaitOutcome.code q.code)
    ∧ (∀ st : String, waitOutcome st [] = WaitOutcome.blocked) := by
  refine ⟨fun st e es => ?_, fun st es => rfl, fun st q es h1 h2 h3 => ?_,
    fun st => rfl⟩
  · cases e <;> rfl
  · simp [waitOutcome, handleCallback, h1, h2, h3]

/-- Claim C5 witness: a callback with matching state and a code,
arriving before a cancellation, wins and yields the code. -/
theorem c5_witness :
    waitOutcome "st1" [AuthEvent.callback ⟨"", "", "st1", "code7"⟩,
      AuthEvent.cancel] = WaitOutcome.code "code7" := by
  exact c5_first_event_wins.2.2.1 "st1" ⟨"", "", "st1", "code7"⟩
    [AuthEvent.cancel] rfl rfl (by decide)

/-- Claim C6: on every exit path of the callback wait — code receipt,
callback error, cancellation — the loopback listener is released
before `startCallbackServer` returns (the deferred close and the
per-branch shutdown both run), so the port can be rebound. The
`blocked` case is the wait never returning, to which the claim does
not apply. -/
theorem c6_listener_released_on_return :
    ∀ (st : String) (bindOk : Bool) (events : List AuthEvent),
      (startCallbackServer st bindOk events).outcome ≠ WaitOutcome.blocked →
      (startCallbackServer st bindOk events).acquired = true →
      (startCallbackServer st bindOk events).released = true := by
  intro st bindOk events h1 h2
  cases bindOk with
  | false => simp [startCallbackServer] at h2
  | true =>
    cases h : waitOutcome st events <;>
      simp [startCallbackServer, h] at h1 h2 ⊢

/-- Claim C6 witness: after a cancellation event the wait returns
cancelled and the listener has been released. -/
theorem c6_witness :
    (startCallbackServer "st" true [AuthEvent.cancel]).released = true := by
  exact c6_listener_released_on_return "st" true [AuthEvent.cancel]
    (by decide) (by decide)

/-- Claim C8: for an expired persisted credential with a non-empty
refresh token, `GetValidToken` (given a provider refresh that returns
an unexpired token, as the OAuth2 token source does) returns a token
with strictly later expiry, persists exactly that token, and a
subsequent `TokenFromFile` returns the same refreshed value; an
unexpired credential is returned as-is with the file unchanged. -/
theorem c8_refresh_persists_and_roundtrips :
    (∀ (now : Int) (refresh : Token → Except String Token) (t nt : Token),
      t.expiry ≤ now → t.refreshToken ≠ "" → refresh t = .ok nt →
      now < nt.expiry →
      GetValidToken now refresh (some t) = (some nt, Except.ok nt)
      ∧ t.expiry < nt.expiry
      ∧ TokenFromFile (GetValidToken now refresh (some t)).1 = .ok nt)
    ∧ (∀ (now : Int) (refresh : Token → Except String Token) (t : Token),
      now < t.expiry →
      GetValidToken now refresh (some t) = (some t, Except.ok t)) := by
  constructor
  · intro now refresh t nt hexp href hok hnew
    have hnotlt : ¬ now < t.expiry := not_lt.mpr hexp
    have hmain : GetValidToken now refresh (some t) = (some nt, Except.ok nt) := by
      simp [GetValidToken, hnotlt, href, hok]
    exact ⟨hmain, lt_of_le_of_lt hexp hnew, by rw [hmain]; rfl⟩
  · intro now refresh t hvalid
    simp [GetValidToken, hvalid]

/-- Claim C8 witness: an expired token (expiry 5, now 10) with a
refresh token is refreshed to expiry 20, persisted, and re-loaded. -/
theorem c8_witness :
    GetValidToken 10 (fun _ => .ok ⟨"b", "r", "Bearer", 20⟩)
        (some ⟨"a", "r", "Bearer", 5⟩)
      = (some ⟨"b", "r", "Bearer", 20⟩, Except.ok ⟨"b", "r", "Bearer", 20⟩)
    ∧ (5 : Int) < 20 := by
  have h := c8_refresh_persists_and_roundtrips.1 10
    (fun _ => .ok ⟨"b", "r", "Bearer", 20⟩) ⟨"a", "r", "Bearer", 5⟩
    ⟨"b", "r", "Bearer", 20⟩ (by decide) (by decide) rfl (by decide)
  exact ⟨h.1, h.2.1⟩

/-- A modelled server page sequence is well formed when it is the
sequence a paginated listing actually consumes: every page except the
last carries a continuation token and the last one does not. -/
def wellFormed : List (Page α) → Bool
  | [] => false
  | p :: rest =>
    match rest with
    | [] => p.next == ""
    | _ :: _ => (p.next != "") && wellFormed rest

/-- On a well-formed page sequence with no failure the pagination loop
returns the concatenation of the pages' items in server order. -/
theorem listPaginated_ok_of_wellFormed :
    ∀ (ps : List (Page α)), wellFormed ps = true →
      listPaginated (ps.map FetchOutcome.page) = .ok (ps.map Page.items).flatten := by
  intro ps
  induction ps with
  | nil => intro h; simp [wellFormed] at h
  | cons p rest ih =>
    intro h
    cases rest with
    | nil =>
      simp [wellFormed] at h
      simp [listPaginated, h]
    | cons q rest2 =>
      simp [wellFormed] at h
      show (if p.next = "" then ListResult.ok p.items
        else
          match listPaginated (List.map FetchOutcome.page (q :: rest2)) with
          | ListResult.ok more => ListResult.ok (p.items ++ more)
          | r => r)
        = ListResult.ok (List.map Page.items (p :: q :: rest2)).flatten
      rw [if_neg h.1, ih h.2]
      simp

/-- If every page before the failing fetch carries a continuation
token, a failing page fetch makes the pagination loop return exactly
that error — no items, no partial prefix. -/
theorem listPaginated_err_of_fail :
    ∀ (ps : List (Page α)) (e : String) (rest : List (FetchOutcome α)),
      (∀ p ∈ ps, p.next ≠ "") →
      listPaginated (ps.map FetchOutcome.page ++ FetchOutcome.fail e :: rest)
        = .err e := by
  intro ps
  induction ps with
  | nil => intro e rest _; simp [listPaginated]
  | cons p tail ih =>
    intro e rest h
    have hp : p.next ≠ "" := h p (List.mem_cons_self p tail)
    have htail := ih e rest (fun q hq => h q (List.mem_cons_of_mem p hq))
    simp [listPaginated, hp, htail]

/-- Claim C1: every paginated listing operation (`ListCourses`,
`ListCourseWork`, `ListAnnouncements`, `ListStudentSubmissions`)
returns the concatenation of the items of every page in server order
with no client-side re-sorting, and if any page fetch fails the whole
operation fails with that error and returns zero items, never a
partial prefix of the already-aggregated pages. -/
theorem c1_pagination_all_or_nothing :
    (∀ ps : List (Page Course), wellFormed ps = true →
      ListCourses (ps.map FetchOutcome.page) = .ok (ps.map Page.items).flatten)
    ∧ (∀ ps : List (Page CourseWork), wellFormed ps = true →
      ListCourseWork (ps.map FetchOutcome.page) = .ok (ps.map Page.items).flatten)
    ∧ (∀ ps : List (Page Announcement), wellFormed ps = true →
      ListAnnouncements (ps.map FetchOutcome.page)
        = .ok (ps.map Page.items).flatten)
    ∧ (∀ ps : List (Page StudentSubmission), wellFormed ps = true →
      ListStudentSubmissions (ps.map FetchOutcome.page)
        = .ok (ps.map Page.items).flatten)
    ∧ (∀ (ps : List (Page Course)) (e : String)
        (rest : List (FetchOutcome Course)), (∀ p ∈ ps, p.next ≠ "") →
      ListCourses (ps.map FetchOutcome.page ++ FetchOutcome.fail e :: rest)
        = .err e)
    ∧ (∀ (ps : List (Page CourseWork)) (e : String)
        (rest : List (FetchOutcome CourseWork)), (∀ p ∈ ps, p.next ≠ "") →
      ListCourseWork (ps.map FetchOutcome.page ++ FetchOutcome.fail e :: rest)
        = .err e)
    ∧ (∀ (ps : List (Page Announcement)) (e : String)
        (rest : List (FetchOutcome Announcement)), (∀ p ∈ ps, p.next ≠ "") →
      ListAnnouncements (ps.map FetchOutcome.page ++ FetchOutcome.fail e :: rest)
        = .err e)
    ∧ (∀ (ps : List (Page StudentSubmission)) (e : String)
        (rest : List (FetchOutcome StudentSubmission)),
        (∀ p ∈ ps, p.next ≠ "") →
      ListStudentSubmissions
          (ps.map FetchOutcome.page ++ FetchOutcome.fail e :: rest)
        = .err e) :=
  ⟨listPaginated_ok_of_wellFormed, listPaginated_ok_of_wellFormed,
   listPaginated_ok_of_wellFormed, listPaginated_ok_of_wellFormed,
   listPaginated_err_of_fail, listPaginated_err_of_fail,
   listPaginated_err_of_fail, listPaginated_err_of_fail⟩

/-- Claim C1 witness: synthetic pages of sizes 2/2/1 aggregate to the
5 items in page order, and a failure on page 2 yields the error with
zero items. -/
theorem c1_witness :
    ListAnnouncements
        [FetchOutcome.page ⟨[⟨"a1", "c", "t1", "s", 0⟩, ⟨"a2", "c", "t2", "s", 0⟩], "p2"⟩,
         FetchOutcome.page ⟨[⟨"a3", "c", "t3", "s", 0⟩, ⟨"a4", "c", "t4", "s", 0⟩], "p3"⟩,
         FetchOutcome.page ⟨[⟨"a5", "c", "t5", "s", 0⟩], ""⟩]
      = .ok [⟨"a1", "c", "t1", "s", 0⟩, ⟨"a2", "c", "t2", "s", 0⟩,
             ⟨"a3", "c", "t3", "s", 0⟩, ⟨"a4", "c", "t4", "s", 0⟩,
             ⟨"a5", "c", "t5", "s", 0⟩]
    ∧ ListAnnouncements
        [FetchOutcome.page ⟨[⟨"a1", "c", "t1", "s", 0⟩, ⟨"a2", "c", "t2", "s", 0⟩], "p2"⟩,
         FetchOutcome.fail "server error"]
      = .err "server error" := by
  constructor
  · have h := c1_pagination_all_or_nothing.2.2.1
      [⟨[⟨"a1", "c", "t1", "s", 0⟩, ⟨"a2", "c", "t2", "s", 0⟩], "p2"⟩,
       ⟨[⟨"a3", "c", "t3", "s", 0⟩, ⟨"a4", "c", "t4", "s", 0⟩], "p3"⟩,
       ⟨[⟨"a5", "c", "t5", "s", 0⟩], ""⟩] (by decide)
    simpa using h
  · have h := c1_pagination_all_or_nothing.2.2.2.2.2.2.1
      [⟨[⟨"a1", "c", "t1", "s", 0⟩, ⟨"a2", "c", "t2", "s", 0⟩], "p2"⟩]
      "server error" [] (by decide)
    simpa using h

/-- The backoff update never exceeds the cap. -/
theorem stepBackoff_le (b maxD : Nat) : stepBackoff b maxD ≤ maxD := by
  unfold stepBackoff
  split <;> omega

/-- Folding one backoff update into the closed form: the delay
sequence after an update is the doubled-and-capped sequence. -/
theorem min_pow_stepBackoff (k b maxD : Nat) :
    min (2 ^ k * stepBackoff b maxD) maxD = min (2 ^ (k + 1) * b) maxD := by
  have hp : (0 : Nat) < 2 ^ k := pow_pos (by norm_num) k
  unfold stepBackoff
  split
  · rename_i h
    have h1 : maxD ≤ 2 ^ k * maxD := Nat.le_mul_of_pos_left maxD hp
    have h2 : maxD ≤ 2 ^ (k + 1) * b := by
      calc maxD ≤ 2 * b := le_of_lt h
        _ ≤ 2 ^ k * (2 * b) := Nat.le_mul_of_pos_left _ hp
        _ = 2 ^ (k + 1) * b := by ring
    rw [Nat.min_eq_right h1, Nat.min_eq_right h2]
  · have h3 : 2 ^ k * (2 * b) = 2 ^ (k + 1) * b := by ring
    rw [h3]

/-- The retry loop on `n` 429 answers followed by one 200 answer, with
`n` within the budget and the starting backoff within the cap:
`n + 1` attempts, the delay before retry `k` being
`min (2 ^ k * backoff) maxD`, and the 200 body returned. -/
theorem retry429_success (body junk : β) :
    ∀ (n retries b maxD : Nat), n ≤ retries → b ≤ maxD →
      retryGo maxD (fun _ => false) retries b
          (List.replicate n (Attempt.resp 429 junk) ++ [Attempt.resp 200 body])
        = ⟨n + 1, (List.range n).map (fun k => min (2 ^ k * b) maxD),
           RetryResult.success body⟩ := by
  intro n
  induction n with
  | zero =>
    intro retries b maxD _ _
    cases retries <;> rfl
  | succ m ih =>
    intro retries b maxD hn hb
    obtain ⟨r, rfl⟩ : ∃ r, retries = r + 1 := ⟨retries - 1, by omega⟩
    have hrec := ih r (stepBackoff b maxD) maxD (by omega) (stepBackoff_le b maxD)
    simp only [List.replicate_succ, List.cons_append, retryGo]
    norm_num
    simp [hrec, List.range_succ_eq_map, List.map_map, Function.comp,
      min_pow_stepBackoff, Nat.min_eq_left hb]

/-- Claim C3: for every number `n ≤ retries` of leading HTTP 429
answers followed by one HTTP 200 answer (i.e. `N = n + 1` attempts
within the budget), a `List` operation whose page is served by that
sequence succeeds with the 200 payload; the backoff delays slept
between attempts start at the initial backoff, double each retry
capped at the maximum (`delay k = min (2 ^ k * backoff) maxDelay`),
and the delay sequence is non-decreasing and never exceeds the cap. -/
theorem c3_rate_limited_then_success :
    ∀ (retries n b maxD : Nat) (items : List Course) (junk : Page Course),
      n ≤ retries → b ≤ maxD →
      listWithRetry retries b maxD
          [List.replicate n (Attempt.resp 429 junk)
            ++ [Attempt.resp 200 (Page.mk items "")]]
        = .ok items
      ∧ (doRequestWithRetry retries b maxD (fun _ => false)
          (List.replicate n (Attempt.resp 429 junk)
            ++ [Attempt.resp 200 (Page.mk items "")])).attempts = n + 1
      ∧ (doRequestWithRetry retries b maxD (fun _ => false)
          (List.replicate n (Attempt.resp 429 junk)
            ++ [Attempt.resp 200 (Page.mk items "")])).delays
        = (List.range n).map (fun k => min (2 ^ k * b) maxD)
      ∧ List.Chain' (· ≤ ·)
          ((List.range n).map (fun k => min (2 ^ k * b) maxD))
      ∧ ∀ d ∈ (List.range n).map (fun k => min (2 ^ k * b) maxD), d ≤ maxD := by
  intro retries n b maxD items junk hn hb
  have hmain := retry429_success (Page.mk items "") junk n retries b maxD hn hb
  refine ⟨?_, ?_, ?_, ?_, ?_⟩
  · simp [listWithRetry, doRequestWithRetry, hmain, getOutcome, listPaginated]
  · simp [doRequestWithRetry, hmain]
  · simp [doRequestWithRetry, hmain]
  · rw [List.chain'_iff_get]
    intro i hi
    simp only [List.length_map, List.length_range] at hi
    simp only [List.get_eq_getElem, List.getElem_map, List.getElem_range]
    exact min_le_min
      (Nat.mul_le_mul_right b (Nat.pow_le_pow_right (by norm_num) (Nat.le_succ i)))
      le_rfl
  · intro d hd
    simp only [List.mem_map] at hd
    obtain ⟨k, _, rfl⟩ := hd
    exact min_le_right _ _

/-- Claim C3 witness: two 429 answers then a 200 within the default
budget — the page is returned, 3 attempts, delays 1000 then 2000. -/
theorem c3_witness :
    listWithRetry defaultRetry initialDelay maxDelay
        [[Attempt.resp 429 (Page.mk [] "j"), Attempt.resp 429 (Page.mk [] "j"),
          Attempt.resp 200 (Page.mk ([] : List Course) "")]]
      = .ok []
    ∧ (doRequestWithRetry defaultRetry initialDelay maxDelay (fun _ => false)
        [Attempt.resp 429 (Page.mk [] "j"), Attempt.resp 429 (Page.mk [] "j"),
         Attempt.resp 200 (Page.mk ([] : List Course) "")]).delays
      = [1000, 2000] := by
  have h := c3_rate_limited_then_success defaultRetry 2 initialDelay maxDelay
    [] (Page.mk [] "j") (by decide) (by decide)
  constructor
  · have h1 := h.1
    simpa using h1
  · have h3 := h.2.2.1
    simpa using h3

/-- An attempt outcome that makes the loop want a retry: a response
with status 429 or ≥ 500. -/
def isRetryable : Attempt β → Bool
  | .netErr => false
  | .resp s _ => s == 429 || decide (500 ≤ s)

/-- Claim C4: if the context becomes cancelled at the backoff sleep
following attempt `j` (and was live for the earlier sleeps), and the
first `j + 1` answers are retryable with budget remaining, then the
whole operation aborts with the cancellation error after exactly
`j + 1` attempts — no HTTP attempt is ever executed after the context
is cancelled. -/
theorem c4_cancel_during_sleep_aborts :
    ∀ (j retries b maxD : Nat) (resps : List (Attempt β)),
      j < retries → (hlen : j < resps.length) →
      (∀ (i : Nat) (h : i < resps.length), i ≤ j →
        isRetryable (resps.get ⟨i, h⟩) = true) →
      (doRequestWithRetry retries b maxD (fun i => decide (j ≤ i)) resps).result
        = RetryResult.cancelled
      ∧ (doRequestWithRetry retries b maxD (fun i => decide (j ≤ i))
          resps).attempts = j + 1 := by
  intro j
  induction j with
  | zero =>
    intro retries b maxD resps hj hlen hret
    obtain ⟨r, rfl⟩ : ∃ r, retries = r + 1 := ⟨retries - 1, by omega⟩
    cases resps with
    | nil => simp at hlen
    | cons a rest =>
      have ha := hret 0 (by simp) (le_refl 0)
      cases a with
      | netErr => simp [isRetryable] at ha
      | resp s body =>
        have hs : s = 429 ∨ 500 ≤ s := by
          by_cases h1 : s = 429
          · exact Or.inl h1
          · have ha2 : (s == 429 || decide (500 ≤ s)) = true := ha
            rw [beq_eq_false_iff_ne.mpr h1, Bool.false_or] at ha2
            exact Or.inr (of_decide_eq_true ha2)
        rcases hs with h429 | h500
        · subst h429
          constructor <;> rfl
        · have hne : ¬ s = 429 := by omega
          have hnl : ¬ s < 400 := by omega
          have hno : ¬ (s = 404 ∨ s = 403) := by omega
          constructor <;>
            simp [doRequestWithRetry, retryGo, hne, hnl, hno, h500]
  | succ m ih =>
    intro retries b maxD resps hj hlen hret
    obtain ⟨r, rfl⟩ : ∃ r, retries = r + 1 := ⟨retries - 1, by omega⟩
    cases resps with
    | nil => simp at hlen
    | cons a rest =>
      have hshift : (fun k => decide (m + 1 ≤ k + 1)) = (fun k => decide (m ≤ k)) := by
        funext k
        simp [Nat.succ_le_succ_iff]
      have hrest := ih r (stepBackoff b maxD) maxD rest (by omega)
        (by simp only [List.length_cons] at hlen; omega)
        (fun i h hi => by
          have := hret (i + 1) (by simpa using h) (by omega)
          simpa using this)
      have ha := hret 0 (by simp) (by omega)
      have hc0 : decide (m + 1 ≤ 0) = false := by simp
      cases a with
      | netErr => simp [isRetryable] at ha
      | resp s body =>
        have hs : s = 429 ∨ 500 ≤ s := by
          by_cases h1 : s = 429
          · exact Or.inl h1
          · have ha2 : (s == 429 || decide (500 ≤ s)) = true := ha
            rw [beq_eq_false_iff_ne.mpr h1, Bool.false_or] at ha2
            exact Or.inr (of_decide_eq_true ha2)
        rcases hs with h429 | h500
        · subst h429
          constructor <;>
            simp [doRequestWithRetry, retryGo, hc0, hshift,
              hrest.1, hrest.2, doRequestWithRetry] at hrest ⊢ <;>
            simp [hrest.1, hrest.2]
        · have hne : ¬ s = 429 := by omega
          have hnl : ¬ s < 400 := by omega
          have hno : ¬ (s = 404 ∨ s = 403) := by omega
          constructor <;>
            simp [doRequestWithRetry, retryGo, hne, hnl, hno, h500, hc0,
              hshift, doRequestWithRetry] at hrest ⊢ <;>
            simp [hrest.1, hrest.2]

/-- Claim C4 witness: budget 3, all-500 answers, context cancelled at
the sleep after the second attempt: the loop returns cancelled after
exactly 2 attempts. -/
theorem c4_witness :
    (doRequestWithRetry 3 1000 32000 (fun i => decide (1 ≤ i))
        [Attempt.resp 500 "a", Attempt.resp 500 "b", Attempt.resp 500 "c"]).result
      = RetryResult.cancelled
    ∧ (doRequestWithRetry 3 1000 32000 (fun i => decide (1 ≤ i))
        [Attempt.resp 500 "a", Attempt.resp 500 "b", Attempt.resp 500 "c"]).attempts
      = 2 := by
  exact c4_cancel_during_sleep_aborts 1 3 1000 32000
    [Attempt.resp 500 "a", Attempt.resp 500 "b", Attempt.resp 500 "c"]
    (by decide) (by decide) (by decide)

/-- Claim C2: with the default budget (`retries = 3`) and every
attempt answered HTTP 500, the loop performs exactly `retries + 1 = 4`
attempts sleeping the doubling backoff between them — but the final
error is a body-read failure (`readErr`), not a classified
`ServerError`: the loop closed the response body before handing it to
`parseError`, so `io.ReadAll` fails inside `parseError` and the
classified `APIError` is never built. -/
theorem c2_all_500_exact_attempts_but_misclassified :
    doRequestWithRetry defaultRetry initialDelay maxDelay (fun _ => false)
        (List.replicate (defaultRetry + 1) (Attempt.resp 500 "err body"))
      = ⟨defaultRetry + 1, [1000, 2000, 4000], RetryResult.readErr 500⟩
    ∧ RetryResult.readErr 500 ≠ RetryResult.apiErr 500 "err body" := by
  exact ⟨by decide, by decide⟩

end GcCli
